import Mathlib

/-!
Verification development for the hot-reload framework.

Part 1 embeds the C++ hot-reload runtime (`runtime/runtime.cpp`): the
`HotReload<T>` cell with its `get()` / `assure_loaded()` operations, modelled
as a pure step function over an explicit per-call environment (the results of
the `stat`, `dlclose`, `dlopen` and `dlsym` system/loader calls), producing an
outcome (normal return or process abort via `die`) together with the ordered
trace of externally visible effects.

Part 2 embeds the TypeScript driver and compiler (`src/compile.ts`,
`src/main.ts`, `src/runtime_browser.ts`, `src/util.ts`): the C++ code
generator (`CppCodeGeneratorImpl`), the `this`-removal rewriter
(`RW_RemoveThis` / `RW_MethodToFunction`), the browser patch reconciler
(`reconcileChangedHotReloadable`), and the driver's exit-code behaviour.
-/

namespace HotReloadRT

/-- One hot-reload cell's configuration: the `api` symbol name and the three
file paths, as stored by the `HotReload` constructor in `runtime.cpp`. -/
structure HotReloadUnit where
  api : String
  libpath : String
  copypath : String
  lockfile : String
deriving DecidableEq, Repr

/-- Mutable state of a `HotReload` cell: the cached dynamic-library handle,
the cached function pointer `loaded`, and the recorded `loadtime`. Handles and
function pointers are opaque, modelled as natural numbers; a `none` handle or
pointer models `nullptr`. -/
structure HRState where
  handle : Option Nat
  loaded : Option Nat
  loadtime : Int
deriving DecidableEq, Repr

/-- Initial cell state as established by the `HotReload` constructor:
`handle = nullptr`, `loaded = nullptr`, `loadtime = 0`. -/
def initState : HRState := { handle := none, loaded := none, loadtime := 0 }

/-- Environment of one `get()` call: what each external call would return.
`statSuccess` records whether `stat(libpath, &lib)` succeeds; when it fails
(the library file does not exist) `statMtime` is the indeterminate value that
the uninitialized `lib.st_mtime` happens to hold, since the code never checks
the return value of this `stat`. `dlopenResult`/`dlsymResult` are `none` on
loader failure. -/
structure CallEnv where
  statSuccess : Bool
  statMtime : Int
  lockExists : Bool
  dlcloseOk : Bool
  dlopenResult : Option Nat
  dlsymResult : Option Nat
deriving DecidableEq, Repr

/-- Externally visible effects of `assure_loaded`, in program order. -/
inductive Event where
  /-- a `stat` call on the given path -/
  | estat (path : String)
  /-- `dlclose` of the previously cached handle -/
  | edlclose
  /-- `copy_file(from, to)`: byte-for-byte copy -/
  | ecopy (src : String) (dst : String)
  /-- `dlopen(path, ...)`; the booleans record the `RTLD_NOW` (immediate
  binding) and `RTLD_LOCAL` (local-only visibility) flags -/
  | edlopen (path : String) (bindNow : Bool) (localVis : Bool)
  /-- assignment of a fresh handle into the cell (`handle = dlopen(...)`) -/
  | ecacheHandle (h : Nat)
  /-- assignment `loadtime = lib.st_mtime` -/
  | esetLoadtime (t : Int)
  /-- `dlsym(handle, api)` lookup -/
  | edlsym (api : String)
  /-- assignment of the looked-up pointer into the cell (`loaded = ...`) -/
  | ecachePtr (p : Nat)
  /-- `die(msg)`: diagnostic written to stderr followed by `exit(1)` -/
  | edie (msg : String)
deriving DecidableEq, Repr

/-- Result of `assure_loaded`: either the updated cell state, or the process
aborted via `die` (which writes to stderr and calls `exit(1)`). -/
inductive Outcome where
  | ok (s : HRState)
  | died (msg : String)
deriving DecidableEq, Repr

/-- Tail of `assure_loaded` past the lockfile check and the `dlclose` of a
prior handle: `copy_file`, `dlopen` of the copy with `RTLD_NOW | RTLD_LOCAL`,
`loadtime = lib.st_mtime`, then `dlsym` of the api symbol. -/
def loadFresh (u : HotReloadUnit) (e : CallEnv) (s : HRState) (ev : List Event) :
    Outcome × List Event :=
  let ev := ev ++ [Event.ecopy u.libpath u.copypath,
                   Event.edlopen u.copypath true true]
  match e.dlopenResult with
  | none => (Outcome.died "dlopen failed", ev ++ [Event.edie "dlopen failed"])
  | some h =>
    let s := { s with handle := some h }
    let ev := ev ++ [Event.ecacheHandle h, Event.esetLoadtime e.statMtime]
    let s := { s with loadtime := e.statMtime }
    let ev := ev ++ [Event.edlsym u.api]
    match e.dlsymResult with
    | none => (Outcome.died "dlsym failed", ev ++ [Event.edie "dlsym failed"])
    | some p => (Outcome.ok { s with loaded := some p }, ev ++ [Event.ecachePtr p])

/-- The body of `HotReload::assure_loaded` from `runtime/runtime.cpp`:
`stat(libpath)` (return value ignored); if `loadtime != lib.st_mtime`, check
the lockfile (returning unchanged if it exists), `dlclose` any prior handle
(dying on failure), and perform the fresh load. -/
def assureLoaded (u : HotReloadUnit) (e : CallEnv) (s : HRState) :
    Outcome × List Event :=
  let ev0 : List Event := [Event.estat u.libpath]
  if s.loadtime = e.statMtime then
    (Outcome.ok s, ev0)
  else
    let ev1 := ev0 ++ [Event.estat u.lockfile]
    if e.lockExists then
      (Outcome.ok s, ev1)
    else
      match s.handle with
      | some _ =>
        if e.dlcloseOk then
          loadFresh u e { s with handle := none } (ev1 ++ [Event.edlclose])
        else
          (Outcome.died "dlclose failed",
           ev1 ++ [Event.edlclose, Event.edie "dlclose failed"])
      | none => loadFresh u e s ev1

/-- The value returned by `HotReload::get`: `assure_loaded()` followed by
`return loaded`. `none` means the process died inside `assure_loaded`;
`some p` means `get` returned the pointer `p` (itself `none` for `nullptr`). -/
def getReturn (u : HotReloadUnit) (e : CallEnv) (s : HRState) :
    Option (Option Nat) :=
  match (assureLoaded u e s).1 with
  | Outcome.ok s' => some s'.loaded
  | Outcome.died _ => none

/-- States of a cell after each call of a sequence of `get()` calls; the
sequence stops if the process dies. -/
def runStates (u : HotReloadUnit) : HRState → List CallEnv → List HRState
  | _, [] => []
  | s, e :: es =>
    match (assureLoaded u e s).1 with
    | Outcome.ok s' => s' :: runStates u s' es
    | Outcome.died _ => []

/-- Spec-side definition for the refinement claim about `get()`'s slow path,
following the spec's step order word for word: stat, lock check, release any
prior handle, copy, open the copy, look up the api name, record
`loadtime = mtime(lib_path)`, cache the new handle and function pointer. It
is to be compared against the trace actually produced by `assureLoaded`. -/
def specGetSlowTrace (u : HotReloadUnit) (e : CallEnv) (s : HRState) :
    List Event :=
  [Event.estat u.libpath, Event.estat u.lockfile]
  ++ (match s.handle with | some _ => [Event.edlclose] | none => [])
  ++ [Event.ecopy u.libpath u.copypath,
      Event.edlopen u.copypath true true,
      Event.edlsym u.api,
      Event.esetLoadtime e.statMtime]
  ++ (match e.dlopenResult with | some h => [Event.ecacheHandle h] | none => [])
  ++ (match e.dlsymResult with | some p => [Event.ecachePtr p] | none => [])

/-- Example unit used for concrete runs. -/
def u0 : HotReloadUnit :=
  { api := "shift", libpath := "lib.so", copypath := "copy.so", lockfile := "lock" }

/-- Call environment in which the library has mtime `m`, no lockfile exists,
and every loader call succeeds. -/
def okEnv (m : Int) : CallEnv :=
  { statSuccess := true, statMtime := m, lockExists := false,
    dlcloseOk := true, dlopenResult := some 1, dlsymResult := some 2 }

/-- After a successful `assure_loaded`, `loadtime` either is unchanged or
equals the mtime of `lib_path` observed by this call. -/
theorem loadtime_after (u : HotReloadUnit) (e : CallEnv) (s s' : HRState)
    (h : (assureLoaded u e s).1 = Outcome.ok s') :
    s'.loadtime = s.loadtime ∨ s'.loadtime = e.statMtime := by
  by_cases hfast : s.loadtime = e.statMtime
  · simp [assureLoaded, hfast] at h
    left; rw [← h]
  · by_cases hlock : e.lockExists
    · simp [assureLoaded, hfast, hlock] at h
      left; rw [← h]
    · cases hh : s.handle with
      | none =>
        cases ho : e.dlopenResult with
        | none => simp [assureLoaded, loadFresh, hfast, hlock, hh, ho] at h
        | some hd =>
          cases hsym : e.dlsymResult with
          | none => simp [assureLoaded, loadFresh, hfast, hlock, hh, ho, hsym] at h
          | some p =>
            right
            simp [assureLoaded, loadFresh, hfast, hlock, hh, ho, hsym] at h
            rw [← h]
      | some h0 =>
        by_cases hc : e.dlcloseOk
        · cases ho : e.dlopenResult with
          | none => simp [assureLoaded, loadFresh, hfast, hlock, hh, hc, ho] at h
          | some hd =>
            cases hsym : e.dlsymResult with
            | none =>
              simp [assureLoaded, loadFresh, hfast, hlock, hh, hc, ho, hsym] at h
            | some p =>
              right
              simp [assureLoaded, loadFresh, hfast, hlock, hh, hc, ho, hsym] at h
              rw [← h]
        · simp [assureLoaded, hfast, hlock, hh, hc] at h

/-- C1 (counterexample): at a concrete slow-path call the trace produced by
`assure_loaded` is not the trace the claim prescribes — the code records
`loadtime` and caches the handle before the `dlsym` lookup, whereas the claim
orders the lookup first. -/
theorem C1_counterexample :
    (assureLoaded u0 (okEnv 5) initState).2 ≠ specGetSlowTrace u0 (okEnv 5) initState := by
  decide

/-- C1 (amended): when the mtime of `lib_path` equals `loadtime`, `get()`
returns the cached pointer after the single stat and with no other effect;
otherwise, when no lockfile blocks the load and every loader call succeeds,
it releases any prior handle, copies `lib_path` to `copy_path`, opens the
copy with immediate binding and local visibility (caching the new handle at
that point), records `loadtime = mtime(lib_path)`, then looks up the api name
and caches the pointer, and returns the new pointer — in exactly that order. -/
theorem C1_get_order (u : HotReloadUnit) (e : CallEnv) (s : HRState) (h p : Nat) :
    (s.loadtime = e.statMtime →
      assureLoaded u e s = (Outcome.ok s, [Event.estat u.libpath])
        ∧ getReturn u e s = some s.loaded)
    ∧ (s.loadtime ≠ e.statMtime → e.lockExists = false → e.dlcloseOk = true →
        e.dlopenResult = some h → e.dlsymResult = some p →
        assureLoaded u e s =
          (Outcome.ok { handle := some h, loaded := some p, loadtime := e.statMtime },
           [Event.estat u.libpath, Event.estat u.lockfile]
             ++ (if s.handle.isSome then [Event.edlclose] else [])
             ++ [Event.ecopy u.libpath u.copypath,
                 Event.edlopen u.copypath true true,
                 Event.ecacheHandle h, Event.esetLoadtime e.statMtime,
                 Event.edlsym u.api, Event.ecachePtr p])
          ∧ getReturn u e s = some (some p)) := by
  constructor
  · intro hfast
    constructor
    · simp [assureLoaded, hfast]
    · simp [getReturn, assureLoaded, hfast]
  · intro hne hlock hclose hopen hsym
    cases hh : s.handle with
    | none =>
      constructor
      · simp [assureLoaded, loadFresh, hne, hlock, hh, hopen, hsym]
      · simp [getReturn, assureLoaded, loadFresh, hne, hlock, hh, hopen, hsym]
    | some h0 =>
      constructor
      · simp [assureLoaded, loadFresh, hne, hlock, hh, hclose, hopen, hsym]
      · simp [getReturn, assureLoaded, loadFresh, hne, hlock, hh, hclose, hopen, hsym]

/-- C1 (witness): the slow path of `C1_get_order` at a concrete input. -/
theorem C1_get_order_witness :
    assureLoaded u0 (okEnv 5) initState =
      (Outcome.ok { handle := some 1, loaded := some 2, loadtime := 5 },
       [Event.estat u0.libpath, Event.estat u0.lockfile]
         ++ (if initState.handle.isSome then [Event.edlclose] else [])
         ++ [Event.ecopy u0.libpath u0.copypath,
             Event.edlopen u0.copypath true true,
             Event.ecacheHandle 1, Event.esetLoadtime 5,
             Event.edlsym u0.api, Event.ecachePtr 2])
      ∧ getReturn u0 (okEnv 5) initState = some (some 2) :=
  (C1_get_order u0 (okEnv 5) initState 1 2).2 (by decide) rfl rfl rfl rfl

/-- C2 (counterexample): on the very first call of a newly launched binary
(nothing cached, `loadtime = 0`), with the library's mtime different from
`loadtime` and the lockfile present, `get()` does not abort: `assure_loaded`
returns normally and `get()` returns the null cached pointer. -/
theorem C2_counterexample :
    (assureLoaded u0
        { statSuccess := true, statMtime := 7, lockExists := true,
          dlcloseOk := true, dlopenResult := some 1, dlsymResult := some 2 }
        initState).1 = Outcome.ok initState
    ∧ getReturn u0
        { statSuccess := true, statMtime := 7, lockExists := true,
          dlcloseOk := true, dlopenResult := some 1, dlsymResult := some 2 }
        initState = some none := by
  decide

/-- C2 (amended): whenever the mtime of `lib_path` differs from `loadtime`
while the lockfile exists, `get()` performs no load — the state is unchanged
and the only effects are the two stat calls — and it returns the previously
cached pointer unchanged; when no pointer has ever been cached this returned
value is the null pointer (the call does not abort). -/
theorem C2_lockfile_stale (u : HotReloadUnit) (e : CallEnv) (s : HRState)
    (hne : s.loadtime ≠ e.statMtime) (hlock : e.lockExists = true) :
    assureLoaded u e s =
      (Outcome.ok s, [Event.estat u.libpath, Event.estat u.lockfile])
    ∧ getReturn u e s = some s.loaded := by
  constructor
  · simp [assureLoaded, hne, hlock]
  · simp [getReturn, assureLoaded, hne, hlock]

/-- C2 (witness): `C2_lockfile_stale` at a concrete input with a cached
pointer present. -/
theorem C2_lockfile_stale_witness :
    assureLoaded u0
        { statSuccess := true, statMtime := 9, lockExists := true,
          dlcloseOk := true, dlopenResult := some 1, dlsymResult := some 2 }
        { handle := some 1, loaded := some 2, loadtime := 5 } =
      (Outcome.ok { handle := some 1, loaded := some 2, loadtime := 5 },
       [Event.estat u0.libpath, Event.estat u0.lockfile])
    ∧ getReturn u0
        { statSuccess := true, statMtime := 9, lockExists := true,
          dlcloseOk := true, dlopenResult := some 1, dlsymResult := some 2 }
        { handle := some 1, loaded := some 2, loadtime := 5 } = some (some 2) :=
  C2_lockfile_stale u0 _ _ (by decide) rfl

/-- Unfolding lemma: a successful call prepends its state to the run. -/
theorem runStates_cons_ok (u : HotReloadUnit) (e : CallEnv) (es : List CallEnv)
    (s s' : HRState) (h : (assureLoaded u e s).1 = Outcome.ok s') :
    runStates u s (e :: es) = s' :: runStates u s' es := by
  simp [runStates, h]

/-- Unfolding lemma: a dying call ends the run. -/
theorem runStates_cons_died (u : HotReloadUnit) (e : CallEnv) (es : List CallEnv)
    (s : HRState) (m : String) (h : (assureLoaded u e s).1 = Outcome.died m) :
    runStates u s (e :: es) = [] := by
  simp [runStates, h]

/-- C3 (counterexample): when the observed mtime of `lib_path` decreases
between successful loads (here 5 then 3), the recorded `loadtime` decreases
as well: the sequence of loadtimes `[0, 5, 3]` is not monotonically
non-decreasing. -/
theorem C3_counterexample :
    ¬ List.Chain' (· ≤ ·)
      (initState.loadtime ::
        (runStates u0 initState [okEnv 5, okEnv 3]).map HRState.loadtime) := by
  intro hc
  have h : (runStates u0 initState [okEnv 5, okEnv 3]).map HRState.loadtime
      = [(5 : Int), (3 : Int)] := by decide
  rw [h] at hc
  have h2 := (List.chain'_cons.mp hc).2
  have h3 := (List.chain'_cons.mp h2).1
  omega

/-- C3 (amended): a successful load records `loadtime` as exactly the mtime
observed by that call, so `loadtime` is monotonically non-decreasing across a
process lifetime provided the observed mtimes of `lib_path` never drop below
the initial `loadtime` and form a non-decreasing sequence; with an arbitrary
mtime sequence a decrease is possible. -/
theorem C3_loadtime_monotone (u : HotReloadUnit) :
    ∀ (envs : List CallEnv) (s : HRState),
    (∀ e ∈ envs, s.loadtime ≤ e.statMtime) →
    List.Chain' (· ≤ ·) (envs.map CallEnv.statMtime) →
    List.Chain' (· ≤ ·)
      (s.loadtime :: (runStates u s envs).map HRState.loadtime) := by
  intro envs
  induction envs with
  | nil => intro s _ _; simp [runStates]
  | cons e es ih =>
    intro s hbound hchain
    rw [List.map_cons] at hchain
    have hpair := List.chain'_iff_pairwise.mp hchain
    obtain ⟨hhead, _⟩ := List.pairwise_cons.mp hpair
    have htail : List.Chain' (· ≤ ·) (es.map CallEnv.statMtime) := hchain.tail
    cases hr : (assureLoaded u e s).1 with
    | died m =>
      rw [runStates_cons_died u e es s m hr]
      simp
    | ok s' =>
      rw [runStates_cons_ok u e es s s' hr, List.map_cons]
      have hstep := loadtime_after u e s s' hr
      have hs'le : s.loadtime ≤ s'.loadtime := by
        rcases hstep with h | h
        · rw [h]
        · rw [h]; exact hbound e (List.mem_cons_self e es)
      have hs'bound : ∀ e' ∈ es, s'.loadtime ≤ e'.statMtime := by
        intro e' he'
        rcases hstep with h | h
        · rw [h]; exact hbound e' (List.mem_cons_of_mem _ he')
        · rw [h]
          exact hhead e'.statMtime (List.mem_map_of_mem CallEnv.statMtime he')
      exact List.chain'_cons.mpr ⟨hs'le, ih s' hs'bound htail⟩

/-- C3 (witness): `C3_loadtime_monotone` on a concrete non-decreasing mtime
sequence. -/
theorem C3_loadtime_monotone_witness :
    List.Chain' (· ≤ ·)
      (initState.loadtime ::
        (runStates u0 initState [okEnv 3, okEnv 5]).map HRState.loadtime) :=
  C3_loadtime_monotone u0 [okEnv 3, okEnv 5] initState (by decide)
    (by simp [okEnv, List.chain'_cons])

/-- C4: every dynamic-loading failure inside `get()` — a failing `dlclose` of
the prior handle, a null result from `dlopen` of the copy, or a `dlsym` error
— makes the running binary write a diagnostic to standard error and terminate
(`die`): the outcome is `died`, the trace ends at the `die` event, and no
further effect follows. -/
theorem C4_loader_failures_die (u : HotReloadUnit) (e : CallEnv) (s : HRState)
    (h0 hnew : Nat)
    (hne : s.loadtime ≠ e.statMtime) (hlock : e.lockExists = false) :
    (s.handle = some h0 → e.dlcloseOk = false →
      assureLoaded u e s =
        (Outcome.died "dlclose failed",
         [Event.estat u.libpath, Event.estat u.lockfile, Event.edlclose,
          Event.edie "dlclose failed"]))
    ∧ ((s.handle = none ∨ e.dlcloseOk = true) → e.dlopenResult = none →
        assureLoaded u e s =
          (Outcome.died "dlopen failed",
           [Event.estat u.libpath, Event.estat u.lockfile]
             ++ (if s.handle.isSome then [Event.edlclose] else [])
             ++ [Event.ecopy u.libpath u.copypath,
                 Event.edlopen u.copypath true true,
                 Event.edie "dlopen failed"]))
    ∧ ((s.handle = none ∨ e.dlcloseOk = true) → e.dlopenResult = some hnew →
        e.dlsymResult = none →
        assureLoaded u e s =
          (Outcome.died "dlsym failed",
           [Event.estat u.libpath, Event.estat u.lockfile]
             ++ (if s.handle.isSome then [Event.edlclose] else [])
             ++ [Event.ecopy u.libpath u.copypath,
                 Event.edlopen u.copypath true true,
                 Event.ecacheHandle hnew, Event.esetLoadtime e.statMtime,
                 Event.edlsym u.api, Event.edie "dlsym failed"])) := by
  refine ⟨?_, ?_, ?_⟩
  · intro hh hc
    simp [assureLoaded, hne, hlock, hh, hc]
  · intro hcl ho
    rcases hcl with hh | hc
    · simp [assureLoaded, loadFresh, hne, hlock, hh, ho]
    · cases hh : s.handle with
      | none => simp [assureLoaded, loadFresh, hne, hlock, hh, ho]
      | some h1 => simp [assureLoaded, loadFresh, hne, hlock, hh, hc, ho]
  · intro hcl ho hsym
    rcases hcl with hh | hc
    · simp [assureLoaded, loadFresh, hne, hlock, hh, ho, hsym]
    · cases hh : s.handle with
      | none => simp [assureLoaded, loadFresh, hne, hlock, hh, ho, hsym]
      | some h1 => simp [assureLoaded, loadFresh, hne, hlock, hh, hc, ho, hsym]

/-- C4 (witness): a failing `dlopen` at a concrete input dies with the
diagnostic trace. -/
theorem C4_loader_failures_die_witness :
    assureLoaded u0
        { statSuccess := true, statMtime := 5, lockExists := false,
          dlcloseOk := true, dlopenResult := none, dlsymResult := none }
        initState =
      (Outcome.died "dlopen failed",
       [Event.estat u0.libpath, Event.estat u0.lockfile]
         ++ (if initState.handle.isSome then [Event.edlclose] else [])
         ++ [Event.ecopy u0.libpath u0.copypath,
             Event.edlopen u0.copypath true true,
             Event.edie "dlopen failed"]) :=
  (C4_loader_failures_die u0 _ initState 0 0 (by decide) rfl).2.1 (Or.inl rfl) rfl

/-- C10: the runtime never inspects whether the `stat` of `lib_path`
succeeded — the outcome and trace of `assure_loaded` are identical whatever
`statSuccess` is — and when `lib_path` does not exist the staleness
comparison reads an indeterminate mtime, so `get()` can proceed to copy the
nonexistent library and `dlopen` it (dying inside the loader) instead of
treating the unit as up to date and returning the cached pointer. -/
theorem C10_stat_failure_undetected :
    (∀ (b : Bool) (u : HotReloadUnit) (e : CallEnv) (s : HRState),
      assureLoaded u { e with statSuccess := b } s = assureLoaded u e s)
    ∧ assureLoaded u0
        { statSuccess := false, statMtime := 42, lockExists := false,
          dlcloseOk := true, dlopenResult := none, dlsymResult := none }
        { handle := some 1, loaded := some 2, loadtime := 5 } =
      (Outcome.died "dlopen failed",
       [Event.estat u0.libpath, Event.estat u0.lockfile, Event.edlclose,
        Event.ecopy u0.libpath u0.copypath,
        Event.edlopen u0.copypath true true,
        Event.edie "dlopen failed"]) := by
  constructor
  · intro b u e s
    cases e
    rfl
  · decide

end HotReloadRT

namespace HotReloadComp

/-- A TypeScript type annotation as seen by the lowerer `genType` in
`src/compile.ts`: the `number` keyword, a type reference (a named type with
type arguments, such as `Promise<number>`), or any other type node, carrying
its source text. -/
inductive Ty where
  | number
  | typeRef (name : String) (args : List Ty)
  | otherTy (text : String)
deriving Repr

mutual

/-- Source text of a type annotation, used in diagnostics. -/
def tyText : Ty → String
  | Ty.number => "number"
  | Ty.typeRef n args =>
    n ++ "<" ++ String.intercalate ", " (tyTextList args) ++ ">"
  | Ty.otherTy t => t

/-- Source texts of a list of type annotations. -/
def tyTextList : List Ty → List String
  | [] => []
  | t :: ts => tyText t :: tyTextList ts

end

/-- The lowerer's `genType` (`src/compile.ts`): `number` lowers to `int`; a
type reference whose name is `Promise` with exactly one type argument lowers
to the lowering of that argument; every other type node falls through to the
fatal "cannot translate type" diagnostic. -/
def genType : Ty → Except String String
  | Ty.number => Except.ok "int"
  | Ty.typeRef "Promise" [a] => genType a
  | t => Except.error ("cannot translate type \"" ++ tyText t ++ "\"")

/-- Spec-side definition for the refinement claim about `genType`, following
the spec's words: the numeric type `number` only, with one exception — the
type `Promise<number>` is treated as `number`; every further type is a fatal
cannot-translate diagnostic. -/
def specGenType : Ty → Except String String
  | Ty.number => Except.ok "int"
  | Ty.typeRef "Promise" [Ty.number] => Except.ok "int"
  | t => Except.error ("cannot translate type \"" ++ tyText t ++ "\"")

/-- Characterization of the types `genType` accepts: `number` wrapped in any
number of one-argument `Promise` references. -/
def promiseWrappedNumber : Ty → Bool
  | Ty.number => true
  | Ty.typeRef "Promise" [a] => promiseWrappedNumber a
  | _ => false

/-- C6 (counterexample): the doubly wrapped type `Promise<Promise<number>>`
is neither `number` nor `Promise<number>`, yet `genType` lowers it to `int`
instead of issuing the fatal cannot-translate diagnostic the claim
prescribes. -/
theorem C6_counterexample :
    genType (Ty.typeRef "Promise" [Ty.typeRef "Promise" [Ty.number]])
      ≠ specGenType (Ty.typeRef "Promise" [Ty.typeRef "Promise" [Ty.number]]) := by
  have h1 : genType (Ty.typeRef "Promise" [Ty.typeRef "Promise" [Ty.number]])
      = Except.ok "int" := rfl
  rw [h1]
  intro h
  exact Except.noConfusion h

/-- C6 (amended): `number` lowers to the 32-bit signed integer type `int`; a
`Promise` reference with exactly one type argument is lowered as that
argument (in particular `Promise<number>` is treated as `number`, but so is
any deeper `Promise` nesting of `number`, in any annotation position); every
other type causes the fatal cannot-translate diagnostic, i.e. `genType`
succeeds exactly on `number` wrapped in one-argument `Promise` references,
and then always produces `int`. -/
theorem C6_genType_int (t : Ty) :
    (genType t = Except.ok "int" ↔ promiseWrappedNumber t = true)
    ∧ (∀ s, genType t = Except.ok s → s = "int") := by
  induction t using genType.induct with
  | case1 =>
    refine ⟨by simp [genType, promiseWrappedNumber], ?_⟩
    intro s h
    simp [genType] at h
    exact h.symm
  | case2 a ih =>
    have hg : genType (Ty.typeRef "Promise" [a]) = genType a := by
      simp [genType]
    have hp : promiseWrappedNumber (Ty.typeRef "Promise" [a])
        = promiseWrappedNumber a := by
      simp [promiseWrappedNumber]
    refine ⟨?_, ?_⟩
    · rw [hg, hp]; exact ih.1
    · intro s h
      rw [hg] at h
      exact ih.2 s h
  | case3 t h1 h2 =>
    have hgt : genType t
        = Except.error ("cannot translate type \"" ++ tyText t ++ "\"") := by
      rw [genType.eq_def]
      split
      · exact absurd rfl h1
      · next a => exact absurd rfl (h2 a)
      · rfl
    have hpw : promiseWrappedNumber t = false := by
      rw [promiseWrappedNumber.eq_def]
      split
      · exact absurd rfl h1
      · next a => exact absurd rfl (h2 a)
      · rfl
    refine ⟨?_, ?_⟩
    · rw [hgt, hpw]; simp
    · intro s h
      rw [hgt] at h
      exact absurd h (by simp)

/-- C6 (witness): `C6_genType_int` at the concrete type `Promise<number>`. -/
theorem C6_genType_int_witness :
    genType (Ty.typeRef "Promise" [Ty.number]) = Except.ok "int"
    ∧ "int" = "int" :=
  ⟨(C6_genType_int (Ty.typeRef "Promise" [Ty.number])).1.mpr rfl,
   (C6_genType_int (Ty.typeRef "Promise" [Ty.number])).2 "int"
     ((C6_genType_int (Ty.typeRef "Promise" [Ty.number])).1.mpr rfl)⟩

/-- Binary, prefix and postfix operator tokens of the DSL expression subset,
plus a catch-all for any other operator token (carrying its printed kind). -/
inductive BinOp where
  | plusTok
  | plusPlusTok
  | minusTok
  | asteriskTok
  | slashTok
  | otherTok (kind : String)
deriving DecidableEq, Repr

/-- Printed form of an operator token, used in expression source text. -/
def opText : BinOp → String
  | BinOp.plusTok => "+"
  | BinOp.plusPlusTok => "++"
  | BinOp.minusTok => "-"
  | BinOp.asteriskTok => "*"
  | BinOp.slashTok => "/"
  | BinOp.otherTok k => k

/-- The lowerer's `genOperator`: a lookup in `genOperatorMap`; an operator
missing from the map is a fatal diagnostic. -/
def genOperator : BinOp → Except String String
  | BinOp.plusTok => Except.ok "+"
  | BinOp.plusPlusTok => Except.ok "++"
  | BinOp.minusTok => Except.ok "-"
  | BinOp.asteriskTok => Except.ok "*"
  | BinOp.slashTok => Except.ok "/"
  | BinOp.otherTok k => Except.error ("cannot translate binary operator " ++ k)

/-- A TypeScript expression as seen by the lowerer and the rewriters: calls,
numeric and boolean literals, identifiers, binary and unary expressions,
`await`, the `this` keyword, property accesses, and a catch-all for every
other expression kind (carrying its source text). -/
inductive Expr where
  | call (f : Expr) (args : List Expr)
  | numLit (text : String)
  | trueLit
  | falseLit
  | ident (name : String)
  | binE (l : Expr) (op : BinOp) (r : Expr)
  | preE (op : BinOp) (e : Expr)
  | postE (op : BinOp) (e : Expr)
  | awaitE (e : Expr)
  | thisE
  | propAccess (obj : Expr) (name : String)
  | otherE (text : String)
deriving Repr

mutual

/-- Source text of an expression, used in diagnostics. -/
def exprText : Expr → String
  | Expr.call f args =>
    exprText f ++ "(" ++ String.intercalate ", " (exprTextList args) ++ ")"
  | Expr.numLit t => t
  | Expr.trueLit => "true"
  | Expr.falseLit => "false"
  | Expr.ident n => n
  | Expr.binE l op r => exprText l ++ " " ++ opText op ++ " " ++ exprText r
  | Expr.preE op e => opText op ++ exprText e
  | Expr.postE op e => exprText e ++ opText op
  | Expr.awaitE e => "await " ++ exprText e
  | Expr.thisE => "this"
  | Expr.propAccess o n => exprText o ++ "." ++ n
  | Expr.otherE t => t

/-- Source texts of a list of expressions. -/
def exprTextList : List Expr → List String
  | [] => []
  | e :: es => exprText e :: exprTextList es

end

mutual

/-- The lowerer's `genExpr` (`src/compile.ts`), parameterized by the set of
hot-reloadable function names. A call generates its arguments first, then
requires the callee to be a bare identifier; the identifier gets the
`.get()` suffix exactly when it names a hot-reloadable function. A binary or
unary expression translates its operator first. `await` unwraps its operand.
Everything else — including `this` and property accesses, which the
rewriters are expected to have removed — is a fatal diagnostic. -/
def genExpr (hr : List String) : Expr → Except String String
  | Expr.call f args =>
    match genExprList hr args with
    | Except.error m => Except.error m
    | Except.ok cArgs =>
      match f with
      | Expr.ident callName =>
        let callNameSuffix := if hr.contains callName then ".get()" else ""
        Except.ok (callName ++ callNameSuffix ++ "("
          ++ String.intercalate ", " cArgs ++ ")")
      | f' =>
        Except.error ("call of " ++ exprText (Expr.call f' args)
          ++ " must call an identifier")
  | Expr.numLit t => Except.ok t
  | Expr.trueLit => Except.ok "true"
  | Expr.falseLit => Except.ok "false"
  | Expr.ident n => Except.ok n
  | Expr.binE l op r =>
    match genOperator op with
    | Except.error m => Except.error m
    | Except.ok cOp =>
      match genExpr hr l with
      | Except.error m => Except.error m
      | Except.ok cLeft =>
        match genExpr hr r with
        | Except.error m => Except.error m
        | Except.ok cRight => Except.ok (cLeft ++ " " ++ cOp ++ " " ++ cRight)
  | Expr.preE op e =>
    match genOperator op with
    | Except.error m => Except.error m
    | Except.ok cOp =>
      match genExpr hr e with
      | Except.error m => Except.error m
      | Except.ok cOperand => Except.ok (cOp ++ cOperand)
  | Expr.postE op e =>
    match genOperator op with
    | Except.error m => Except.error m
    | Except.ok cOp =>
      match genExpr hr e with
      | Except.error m => Except.error m
      | Except.ok cOperand => Except.ok (cOperand ++ cOp)
  | Expr.awaitE e => genExpr hr e
  | e =>
    Except.error ("cannot translate expression \"" ++ exprText e ++ "\"")

/-- Argument-list counterpart of `genExpr`: `e.arguments.map(...)`, failing
at the first untranslatable argument. -/
def genExprList (hr : List String) : List Expr → Except String (List String)
  | [] => Except.ok []
  | e :: es =>
    match genExpr hr e with
    | Except.error m => Except.error m
    | Except.ok c =>
      match genExprList hr es with
      | Except.error m => Except.error m
      | Except.ok cs => Except.ok (c :: cs)

end

/-- Whether an expression is a bare identifier (`ts.isIdentifier`). -/
def isIdentE : Expr → Bool
  | Expr.ident _ => true
  | _ => false

/-- C7: in a lowered body, a call whose callee identifier names a reloadable
function is emitted as `name.get()(args...)`; a call whose callee names a
non-reloadable function is emitted as the direct call `name(args...)`; and a
call whose callee is not an identifier is a fatal diagnostic — in each case
provided the arguments themselves lower successfully. -/
theorem C7_call_rewrite (hr : List String) (callName : String) (f : Expr)
    (args : List Expr) (l : List String)
    (hargs : genExprList hr args = Except.ok l) :
    (callName ∈ hr →
      genExpr hr (Expr.call (Expr.ident callName) args)
        = Except.ok (callName ++ ".get()" ++ "(" ++ String.intercalate ", " l ++ ")"))
    ∧ (callName ∉ hr →
      genExpr hr (Expr.call (Expr.ident callName) args)
        = Except.ok (callName ++ "" ++ "(" ++ String.intercalate ", " l ++ ")"))
    ∧ (isIdentE f = false →
      genExpr hr (Expr.call f args)
        = Except.error ("call of " ++ exprText (Expr.call f args)
            ++ " must call an identifier")) := by
  refine ⟨?_, ?_, ?_⟩
  · intro hin
    simp [genExpr, hargs, hin]
  · intro hout
    simp [genExpr, hargs, hout]
  · intro hf
    cases f <;> simp_all [genExpr, hargs, isIdentE]

/-- C7 (witness): `C7_call_rewrite` at a concrete reloadable call. -/
theorem C7_call_rewrite_witness :
    genExpr ["shift"] (Expr.call (Expr.ident "shift") [Expr.numLit "1"])
      = Except.ok ("shift" ++ ".get()" ++ "("
          ++ String.intercalate ", " ["1"] ++ ")") :=
  (C7_call_rewrite ["shift"] "shift" Expr.thisE [Expr.numLit "1"] ["1"] rfl).1
    (by decide)

mutual

/-- The `RW_RemoveThis` transformer (`src/compile.ts`): a bottom-up visit
that replaces a property access whose (already visited) object is the `this`
keyword by the bare name identifier. Node kinds outside the modelled subset
are opaque. -/
def removeThisE : Expr → Expr
  | Expr.call f args => Expr.call (removeThisE f) (removeThisEList args)
  | Expr.binE l op r => Expr.binE (removeThisE l) op (removeThisE r)
  | Expr.preE op e => Expr.preE op (removeThisE e)
  | Expr.postE op e => Expr.postE op (removeThisE e)
  | Expr.awaitE e => Expr.awaitE (removeThisE e)
  | Expr.propAccess obj name =>
    match removeThisE obj with
    | Expr.thisE => Expr.ident name
    | o => Expr.propAccess o name
  | e => e

/-- `RW_RemoveThis` over the children lists of a node. -/
def removeThisEList : List Expr → List Expr
  | [] => []
  | e :: es => removeThisE e :: removeThisEList es

end

mutual

/-- Whether an expression contains a `this`-rooted property access
(`this.name` for some `name`). -/
def hasThisAccE : Expr → Bool
  | Expr.propAccess Expr.thisE _ => true
  | Expr.propAccess o _ => hasThisAccE o
  | Expr.call f args => hasThisAccE f || hasThisAccList args
  | Expr.binE l _ r => hasThisAccE l || hasThisAccE r
  | Expr.preE _ e => hasThisAccE e
  | Expr.postE _ e => hasThisAccE e
  | Expr.awaitE e => hasThisAccE e
  | _ => false

/-- Whether any expression of a list contains a `this`-rooted access. -/
def hasThisAccList : List Expr → Bool
  | [] => false
  | e :: es => hasThisAccE e || hasThisAccList es

end

/-- The rewriter never produces the bare `this` keyword from another node:
`removeThisE e = thisE` only when `e` was `thisE`. -/
theorem removeThisE_eq_thisE (e : Expr) (h : removeThisE e = Expr.thisE) :
    e = Expr.thisE := by
  cases e <;> simp [removeThisE] at h ⊢
  next obj name =>
    exfalso
    revert h
    cases removeThisE obj <;> simp

mutual

/-- After `RW_RemoveThis`, no `this`-rooted property access remains in an
expression. -/
theorem noThisE : (e : Expr) → hasThisAccE (removeThisE e) = false
  | Expr.call f args => by
    simp [removeThisE, hasThisAccE, noThisE f, noThisEList args]
  | Expr.binE l op r => by
    simp [removeThisE, hasThisAccE, noThisE l, noThisE r]
  | Expr.preE op e => by simp [removeThisE, hasThisAccE, noThisE e]
  | Expr.postE op e => by simp [removeThisE, hasThisAccE, noThisE e]
  | Expr.awaitE e => by simp [removeThisE, hasThisAccE, noThisE e]
  | Expr.propAccess obj name => by
    have hobj := noThisE obj
    simp only [removeThisE]
    cases h : removeThisE obj
    all_goals rw [h] at hobj
    all_goals simp_all [hasThisAccE]
  | Expr.numLit t => by simp [removeThisE, hasThisAccE]
  | Expr.trueLit => by simp [removeThisE, hasThisAccE]
  | Expr.falseLit => by simp [removeThisE, hasThisAccE]
  | Expr.ident n => by simp [removeThisE, hasThisAccE]
  | Expr.thisE => by simp [removeThisE, hasThisAccE]
  | Expr.otherE t => by simp [removeThisE, hasThisAccE]

/-- After `RW_RemoveThis`, no `this`-rooted property access remains in an
expression list. -/
theorem noThisEList : (es : List Expr) → hasThisAccList (removeThisEList es) = false
  | [] => by simp [removeThisEList, hasThisAccList]
  | e :: es => by
    simp [removeThisEList, hasThisAccList, noThisE e, noThisEList es]

end

/-- A variable declaration: the declared name (an identifier, or `none` for a
binding pattern, with its source text kept for diagnostics), an optional type
annotation, and an optional initializer. -/
structure VarDecl where
  nameIdent : Option String
  nameText : String
  ty : Option Ty
  init : Option Expr
deriving Repr

/-- The initializer slot of a `for` statement: absent, a variable declaration
list, or an expression. -/
inductive ForInit where
  | noneI
  | decls (ds : List VarDecl)
  | expr (e : Expr)
deriving Repr

/-- A TypeScript statement as seen by the lowerer: block, while, variable
statement, return, expression statement, for, and a catch-all for any other
statement kind (carrying its source text). -/
inductive Stmt where
  | block (ss : List Stmt)
  | whileS (cond : Expr) (body : Stmt)
  | varStmt (decls : List VarDecl)
  | retS (e : Option Expr)
  | exprS (e : Expr)
  | forS (init : ForInit) (cond : Option Expr) (incr : Option Expr) (body : Stmt)
  | otherS (text : String)
deriving Repr

/-- `RW_RemoveThis` over a variable declaration (its initializer). -/
def removeThisVD (d : VarDecl) : VarDecl :=
  { d with init := d.init.map removeThisE }

/-- `RW_RemoveThis` over a `for` initializer. -/
def removeThisForInit : ForInit → ForInit
  | ForInit.noneI => ForInit.noneI
  | ForInit.decls ds => ForInit.decls (ds.map removeThisVD)
  | ForInit.expr e => ForInit.expr (removeThisE e)

mutual

/-- `RW_RemoveThis` over a statement: the visit reaches every expression in
the statement tree. -/
def removeThisStmt : Stmt → Stmt
  | Stmt.block ss => Stmt.block (removeThisStmtList ss)
  | Stmt.whileS c b => Stmt.whileS (removeThisE c) (removeThisStmt b)
  | Stmt.varStmt ds => Stmt.varStmt (ds.map removeThisVD)
  | Stmt.retS e => Stmt.retS (e.map removeThisE)
  | Stmt.exprS e => Stmt.exprS (removeThisE e)
  | Stmt.forS i c n b =>
    Stmt.forS (removeThisForInit i) (c.map removeThisE) (n.map removeThisE)
      (removeThisStmt b)
  | Stmt.otherS t => Stmt.otherS t

/-- `RW_RemoveThis` over a statement list. -/
def removeThisStmtList : List Stmt → List Stmt
  | [] => []
  | s :: ss => removeThisStmt s :: removeThisStmtList ss

end

/-- Whether a variable declaration contains a `this`-rooted access. -/
def hasThisVD (d : VarDecl) : Bool :=
  match d.init with
  | some e => hasThisAccE e
  | none => false

/-- Whether a `for` initializer contains a `this`-rooted access. -/
def hasThisForInit : ForInit → Bool
  | ForInit.noneI => false
  | ForInit.decls ds => ds.any hasThisVD
  | ForInit.expr e => hasThisAccE e

/-- Whether an optional expression contains a `this`-rooted access. -/
def hasThisOpt : Option Expr → Bool
  | some e => hasThisAccE e
  | none => false

mutual

/-- Whether a statement contains a `this`-rooted property access. -/
def hasThisStmt : Stmt → Bool
  | Stmt.block ss => hasThisStmtList ss
  | Stmt.whileS c b => hasThisAccE c || hasThisStmt b
  | Stmt.varStmt ds => ds.any hasThisVD
  | Stmt.retS e => hasThisOpt e
  | Stmt.exprS e => hasThisAccE e
  | Stmt.forS i c n b =>
    hasThisForInit i || hasThisOpt c || hasThisOpt n || hasThisStmt b
  | Stmt.otherS _ => false

/-- Whether any statement of a list contains a `this`-rooted access. -/
def hasThisStmtList : List Stmt → Bool
  | [] => false
  | s :: ss => hasThisStmt s || hasThisStmtList ss

end

/-- After `RW_RemoveThis`, a variable declaration has no `this`-rooted
access. -/
theorem noThisVD (d : VarDecl) : hasThisVD (removeThisVD d) = false := by
  cases d with
  | mk ni nt ty ini =>
    cases ini with
    | none => simp [removeThisVD, hasThisVD]
    | some e => simp [removeThisVD, hasThisVD, noThisE e]

/-- After `RW_RemoveThis`, an optional expression has no `this`-rooted
access. -/
theorem noThisOpt (e : Option Expr) : hasThisOpt (e.map removeThisE) = false := by
  cases e with
  | none => simp [hasThisOpt]
  | some e => simp [hasThisOpt, noThisE e]

/-- After `RW_RemoveThis`, a `for` initializer has no `this`-rooted access. -/
theorem noThisForInit (i : ForInit) :
    hasThisForInit (removeThisForInit i) = false := by
  cases i with
  | noneI => simp [removeThisForInit, hasThisForInit]
  | decls ds =>
    simp only [removeThisForInit, hasThisForInit, List.any_map, List.any_eq_false]
    intro d _
    simp [Function.comp, noThisVD d]
  | expr e => simp [removeThisForInit, hasThisForInit, noThisE e]

mutual

/-- After `RW_RemoveThis`, no `this`-rooted property access remains anywhere
in a statement. -/
theorem noThisStmt : (s : Stmt) → hasThisStmt (removeThisStmt s) = false
  | Stmt.block ss => by
    simp [removeThisStmt, hasThisStmt, noThisStmtList ss]
  | Stmt.whileS c b => by
    simp [removeThisStmt, hasThisStmt, noThisE c, noThisStmt b]
  | Stmt.varStmt ds => by
    simp only [removeThisStmt, hasThisStmt, List.any_map, List.any_eq_false]
    intro d _
    simp [Function.comp, noThisVD d]
  | Stmt.retS e => by
    simp [removeThisStmt, hasThisStmt, noThisOpt e]
  | Stmt.exprS e => by
    simp [removeThisStmt, hasThisStmt, noThisE e]
  | Stmt.forS i c n b => by
    simp [removeThisStmt, hasThisStmt, noThisForInit i, noThisOpt c,
      noThisOpt n, noThisStmt b]
  | Stmt.otherS t => by simp [removeThisStmt, hasThisStmt]

/-- After `RW_RemoveThis`, no `this`-rooted property access remains anywhere
in a statement list. -/
theorem noThisStmtList : (ss : List Stmt) →
    hasThisStmtList (removeThisStmtList ss) = false
  | [] => by simp [removeThisStmtList, hasThisStmtList]
  | s :: ss => by
    simp [removeThisStmtList, hasThisStmtList, noThisStmt s, noThisStmtList ss]

end

mutual

/-- Modelled from the spec: the semantic check that `compileNative` runs
before any rewriting, via `createProgram` / `getSemanticDiagnostics` (the
TypeScript compiler library, whose sources are not part of this repository),
made fatal by the `fatal(...)` call in `createProgram`. Within a method of
the program class, `this` has the class's type, so a `this.name` access
type-checks only when `name` is one of the class's members, and any other
`self`-rooted use of `this` is rejected. -/
def selfOkE (members : List String) : Expr → Bool
  | Expr.thisE => false
  | Expr.propAccess Expr.thisE n => members.contains n
  | Expr.propAccess o _ => selfOkE members o
  | Expr.call f args => selfOkE members f && selfOkList members args
  | Expr.binE l _ r => selfOkE members l && selfOkE members r
  | Expr.preE _ e => selfOkE members e
  | Expr.postE _ e => selfOkE members e
  | Expr.awaitE e => selfOkE members e
  | _ => true

/-- Modelled from the spec: the semantic check over an expression list. -/
def selfOkList (members : List String) : List Expr → Bool
  | [] => true
  | e :: es => selfOkE members e && selfOkList members es

end

/-- Modelled from the spec: the semantic check over a variable declaration. -/
def selfOkVD (members : List String) (d : VarDecl) : Bool :=
  match d.init with
  | some e => selfOkE members e
  | none => true

/-- Modelled from the spec: the semantic check over a `for` initializer. -/
def selfOkForInit (members : List String) : ForInit → Bool
  | ForInit.noneI => true
  | ForInit.decls ds => ds.all (selfOkVD members)
  | ForInit.expr e => selfOkE members e

/-- Modelled from the spec: the semantic check over an optional expression. -/
def selfOkOpt (members : List String) : Option Expr → Bool
  | some e => selfOkE members e
  | none => true

mutual

/-- Modelled from the spec: the semantic check over a statement. -/
def selfOkStmt (members : List String) : Stmt → Bool
  | Stmt.block ss => selfOkStmtList members ss
  | Stmt.whileS c b => selfOkE members c && selfOkStmt members b
  | Stmt.varStmt ds => ds.all (selfOkVD members)
  | Stmt.retS e => selfOkOpt members e
  | Stmt.exprS e => selfOkE members e
  | Stmt.forS i c n b =>
    selfOkForInit members i && selfOkOpt members c && selfOkOpt members n
      && selfOkStmt members b
  | Stmt.otherS _ => true

/-- Modelled from the spec: the semantic check over a statement list. -/
def selfOkStmtList (members : List String) : List Stmt → Bool
  | [] => true
  | s :: ss => selfOkStmt members s && selfOkStmtList members ss

end

/-- Modelled from the spec: the front end first runs the semantic check on a
method body (fatal on failure) and only then applies `RW_MethodToFunction` /
`RW_RemoveThis` to it, as `compileNative` calls `createProgram` (which
fatals on semantic diagnostics) before transforming any member. -/
def checkedRemoveThisBody (members : List String) (body : List Stmt) :
    Except String (List Stmt) :=
  if selfOkStmtList members body then
    Except.ok (removeThisStmtList body)
  else
    Except.error "self-rooted access does not refer to a class member"

/-- C8: when the method body passes the semantic member check, the rewriter
runs and every property access of the form `this.name` anywhere in the body
is rewritten to the bare identifier `name` (afterwards no `this`-rooted
access remains, and a direct `this.name` node becomes `ident name`); a body
with a `self`-rooted access that does not refer to one of the class's
members is rejected by the check before the rewrite, not silently
rewritten. -/
theorem C8_this_removed (members : List String) (body : List Stmt) (n : String) :
    removeThisE (Expr.propAccess Expr.thisE n) = Expr.ident n
    ∧ (selfOkStmtList members body = true →
        checkedRemoveThisBody members body = Except.ok (removeThisStmtList body)
        ∧ hasThisStmtList (removeThisStmtList body) = false)
    ∧ (selfOkStmtList members body = false →
        checkedRemoveThisBody members body
          = Except.error "self-rooted access does not refer to a class member") := by
  refine ⟨by simp [removeThisE], ?_, ?_⟩
  · intro hok
    exact ⟨by simp [checkedRemoveThisBody, hok], noThisStmtList body⟩
  · intro hbad
    simp [checkedRemoveThisBody, hbad]

/-- C8 (witness): `C8_this_removed` at a concrete body — a method calling
`this.shift(2)` where `shift` is a member — and, through the `false` branch
at a body referencing the non-member `this.missing`, the rejection. -/
theorem C8_this_removed_witness :
    checkedRemoveThisBody ["shift"]
        [Stmt.exprS (Expr.call (Expr.propAccess Expr.thisE "shift")
          [Expr.numLit "2"])]
      = Except.ok (removeThisStmtList
          [Stmt.exprS (Expr.call (Expr.propAccess Expr.thisE "shift")
            [Expr.numLit "2"])])
    ∧ checkedRemoveThisBody ["shift"]
        [Stmt.exprS (Expr.propAccess Expr.thisE "missing")]
      = Except.error "self-rooted access does not refer to a class member" :=
  ⟨((C8_this_removed ["shift"]
      [Stmt.exprS (Expr.call (Expr.propAccess Expr.thisE "shift")
        [Expr.numLit "2"])] "shift").2.1 (by decide)).1,
   (C8_this_removed ["shift"]
      [Stmt.exprS (Expr.propAccess Expr.thisE "missing")] "missing").2.2
     (by decide)⟩

/-- The lowerer's `genVarDecl`: the declared name must be an identifier; the
lowered type is `auto` when no annotation is present; an initializer is
appended as ` = expr`. -/
def genVarDecl (hr : List String) (d : VarDecl) : Except String String :=
  match d.nameIdent with
  | none => Except.error (d.nameText ++ " must be an identifier")
  | some cName =>
    match (match d.ty with | some t => genType t | none => Except.ok "auto") with
    | Except.error m => Except.error m
    | Except.ok cTy =>
      match d.init with
      | none => Except.ok (cTy ++ " " ++ cName)
      | some e =>
        match genExpr hr e with
        | Except.error m => Except.error m
        | Except.ok cInit => Except.ok (cTy ++ " " ++ cName ++ " = " ++ cInit)

/-- The lowerer's `genVarDecls`: each declaration of the list in order. -/
def genVarDecls (hr : List String) : List VarDecl → Except String (List String)
  | [] => Except.ok []
  | d :: ds =>
    match genVarDecl hr d with
    | Except.error m => Except.error m
    | Except.ok c =>
      match genVarDecls hr ds with
      | Except.error m => Except.error m
      | Except.ok cs => Except.ok (c :: cs)

mutual

/-- The lowerer's `genStmt` (`src/compile.ts`): blocks, while, variable
statements, return, expression statements and for statements translate
recursively; every other statement kind is a fatal diagnostic. -/
def genStmt (hr : List String) : Stmt → Except String String
  | Stmt.block ss =>
    match genStmtList hr ss with
    | Except.error m => Except.error m
    | Except.ok cs =>
      Except.ok ("\x7b\n"
        ++ String.intercalate "\n" (cs.map (fun s => "  " ++ s)) ++ "\n\x7d")
  | Stmt.whileS c b =>
    match genExpr hr c with
    | Except.error m => Except.error m
    | Except.ok cCond =>
      match genStmt hr b with
      | Except.error m => Except.error m
      | Except.ok cStmt => Except.ok ("while (" ++ cCond ++ ") " ++ cStmt)
  | Stmt.varStmt ds =>
    match genVarDecls hr ds with
    | Except.error m => Except.error m
    | Except.ok cs => Except.ok (String.intercalate "; " cs ++ ";")
  | Stmt.retS e =>
    match e with
    | none => Except.ok "return;"
    | some e =>
      match genExpr hr e with
      | Except.error m => Except.error m
      | Except.ok cExpr => Except.ok ("return " ++ cExpr ++ ";")
  | Stmt.exprS e =>
    match genExpr hr e with
    | Except.error m => Except.error m
    | Except.ok cExpr => Except.ok (cExpr ++ ";")
  | Stmt.forS i c n b =>
    match (match i with
           | ForInit.noneI => Except.ok ""
           | ForInit.decls ds =>
             (match genVarDecls hr ds with
              | Except.error m => Except.error m
              | Except.ok cs => Except.ok (String.intercalate ", " cs))
           | ForInit.expr e => genExpr hr e) with
    | Except.error m => Except.error m
    | Except.ok cInit =>
      match (match c with
             | none => Except.ok ""
             | some e => genExpr hr e) with
      | Except.error m => Except.error m
      | Except.ok cCond =>
        match (match n with
               | none => Except.ok ""
               | some e => genExpr hr e) with
        | Except.error m => Except.error m
        | Except.ok cIncr =>
          match genStmt hr b with
          | Except.error m => Except.error m
          | Except.ok cStmt =>
            Except.ok ("for (" ++ cInit ++ "; " ++ cCond ++ "; " ++ cIncr
              ++ ") " ++ cStmt)
  | Stmt.otherS t => Except.error ("cannot translate statement " ++ t)

/-- The lowerer over a statement list, in order. -/
def genStmtList (hr : List String) : List Stmt → Except String (List String)
  | [] => Except.ok []
  | s :: ss =>
    match genStmt hr s with
    | Except.error m => Except.error m
    | Except.ok c =>
      match genStmtList hr ss with
      | Except.error m => Except.error m
      | Except.ok cs => Except.ok (c :: cs)

end

/-- A function parameter: the declared name (an identifier, or `none` for a
binding pattern, with its source text for diagnostics) and an optional type
annotation. -/
structure Param where
  nameIdent : Option String
  nameText : String
  ty : Option Ty
deriving Repr

/-- The lowerer's `genParam`: the name must be an identifier and must carry a
type annotation; returns the `(type, name)` pair. -/
def genParam (p : Param) : Except String (String × String) :=
  match p.nameIdent with
  | none => Except.error ("parameter " ++ p.nameText ++ " must be an identifier")
  | some cName =>
    match p.ty with
    | none =>
      Except.error ("parameter " ++ p.nameText ++ " must have a type annotation")
    | some t =>
      match genType t with
      | Except.error m => Except.error m
      | Except.ok cTy => Except.ok (cTy, cName)

/-- `genParam` over a parameter list, in order. -/
def genParams : List Param → Except String (List (String × String))
  | [] => Except.ok []
  | p :: ps =>
    match genParam p with
    | Except.error m => Except.error m
    | Except.ok c =>
      match genParams ps with
      | Except.error m => Except.error m
      | Except.ok cs => Except.ok (c :: cs)

/-- A program function after `RW_MethodToFunction`: name, parameters,
optional return type, and the body's statement list. -/
structure PFunction where
  name : String
  params : List Param
  retTy : Option Ty
  body : List Stmt
deriving Repr

/-- Indentation applied to an already joined body: every line of the body is
prefixed with two spaces. -/
def indentBody (cBodyUnIndented : String) : String :=
  String.intercalate "\n"
    ((cBodyUnIndented.splitOn "\n").map (fun s => "  " ++ s))

/-- The lowerer's `genFunction`: return type (`auto` when absent), name,
parameters as `type name` pairs, and the indented lowered body. -/
def genFunction (hr : List String) (f : PFunction) : Except String String :=
  match (match f.retTy with | some t => genType t | none => Except.ok "auto") with
  | Except.error m => Except.error m
  | Except.ok cTy =>
    match genParams f.params with
    | Except.error m => Except.error m
    | Except.ok ptn =>
      let cParams := String.intercalate ", " (ptn.map (fun tn => tn.1 ++ " " ++ tn.2))
      match genStmtList hr f.body with
      | Except.error m => Except.error m
      | Except.ok cs =>
        let cBody := indentBody (String.intercalate "\n" cs)
        Except.ok (cTy ++ " " ++ f.name ++ "(" ++ cParams ++ ") \x7b\n"
          ++ cBody ++ "\n\x7d")

/-- A generated hot-reload function: its name, canonical signature string,
and the `extern "C"` implementation source. -/
structure HotReloadFunctionG where
  name : String
  signature : String
  impl : String
deriving Repr

/-- The `genTopLevelDefinition` closure of `genHotReload`: the
`HotReload<Signature> name("name", lib, copy, lock);` wiring line. -/
def genTopLevelDefinition (signature cName objFile objCopyFile lockFile : String) :
    String :=
  "HotReload<" ++ signature ++ "> " ++ cName ++ "(\"" ++ cName ++ "\", \""
    ++ objFile ++ "\", \"" ++ objCopyFile ++ "\", \"" ++ lockFile ++ "\");"

/-- The lowerer's `genHotReload`: an explicit return type is required; the
signature is `ret(paramtypes)`; the implementation is an `extern "C"`
function whose body is the indented lowered statement list. -/
def genHotReload (hr : List String) (f : PFunction) :
    Except String HotReloadFunctionG :=
  match f.retTy with
  | none =>
    Except.error ("@hotreload-able " ++ f.name
      ++ " must have an explicit return type")
  | some ty =>
    match genType ty with
    | Except.error m => Except.error m
    | Except.ok cRetTy =>
      match genParams f.params with
      | Except.error m => Except.error m
      | Except.ok ptn =>
        let cParamTys := String.intercalate ", " (ptn.map (fun tn => tn.1))
        let signature := cRetTy ++ "(" ++ cParamTys ++ ")"
        let cParams :=
          String.intercalate ", " (ptn.map (fun tn => tn.1 ++ " " ++ tn.2))
        match genStmtList hr f.body with
        | Except.error m => Except.error m
        | Except.ok cs =>
          let cBody := indentBody (String.intercalate "\n" cs)
          Except.ok
            { name := f.name, signature := signature,
              impl := "extern \"C\" " ++ cRetTy ++ " " ++ f.name ++ "("
                ++ cParams ++ ") \x7b\n" ++ cBody ++ "\n\x7d" }

/-- A method declaration of the program class: name, decorator identifier
texts, parameters, optional return type, and body. -/
structure MethodDecl where
  name : String
  decorators : List String
  params : List Param
  retTy : Option Ty
  body : List Stmt
deriving Repr

/-- A member of the program class as `compileNative` iterates over it: a
method, a field declaration, or any other member kind (each carrying the
member name's source text). -/
inductive Member where
  | method (m : MethodDecl)
  | field (nameText : String)
  | otherMember (nameText : String)
deriving Repr

/-- The `isMarkedHotReload` check: no decorator means not reloadable; more
than one decorator is fatal; a single decorator must be the `hotreload`
identifier, anything else is fatal. -/
def isMarkedHotReload : List String → Except String Bool
  | [] => Except.ok false
  | [d] =>
    if d = "hotreload" then Except.ok true
    else Except.error "only @hotreload decorators are permitted"
  | _ => Except.error "cannot have more than one decorator"

/-- The `RW_MethodToFunction` transformer: a method becomes a function
declaration with the same name, parameters and return type, and with
`RW_RemoveThis` applied to its body. -/
def methodToFunction (m : MethodDecl) : PFunction :=
  { name := m.name, params := m.params, retTy := m.retTy,
    body := removeThisStmtList m.body }

/-- Diagnostic for a non-method member of the program class. -/
def nonMethodMsg (nm : String) : String :=
  "Cannot generate code for non-method " ++ nm
    ++ ". To use constants, define them in a method."

/-- The member loop of `compileNative`: every member must be a method (a
field or any other member kind is fatal); the decorators are checked; the
method named `main` must not be reloadable and is remembered; reloadable and
static functions are collected in source order. -/
def classifyMembers : List Member → Option PFunction → List PFunction →
    List PFunction →
    Except String (Option PFunction × List PFunction × List PFunction)
  | [], mo, st, hot => Except.ok (mo, st, hot)
  | Member.field nm :: _, _, _, _ => Except.error (nonMethodMsg nm)
  | Member.otherMember nm :: _, _, _, _ => Except.error (nonMethodMsg nm)
  | Member.method md :: rest, mo, st, hot =>
    match isMarkedHotReload md.decorators with
    | Except.error m => Except.error m
    | Except.ok isHot =>
      let fn := methodToFunction md
      if fn.name = "main" then
        if isHot then Except.error "\"main\" cannot be hot-reloaded"
        else classifyMembers rest (some fn) st hot
      else if isHot then classifyMembers rest mo st (hot ++ [fn])
      else classifyMembers rest mo (st ++ [fn]) hot

/-- `genFunction` over a function list, in order. -/
def genFunctionList (hr : List String) : List PFunction →
    Except String (List String)
  | [] => Except.ok []
  | f :: fs =>
    match genFunction hr f with
    | Except.error m => Except.error m
    | Except.ok c =>
      match genFunctionList hr fs with
      | Except.error m => Except.error m
      | Except.ok cs => Except.ok (c :: cs)

/-- `genHotReload` over a function list, in order. -/
def genHotReloadList (hr : List String) : List PFunction →
    Except String (List HotReloadFunctionG)
  | [] => Except.ok []
  | f :: fs =>
    match genHotReload hr f with
    | Except.error m => Except.error m
    | Except.ok c =>
      match genHotReloadList hr fs with
      | Except.error m => Except.error m
      | Except.ok cs => Except.ok (c :: cs)

/-- The output of `CppCodeGeneratorImpl`: the lowered `main`, the static
top-level functions, and the hot-reload functions. -/
structure CodeGenOut where
  mainCode : String
  topLevels : List String
  hotReload : List HotReloadFunctionG
deriving Repr

/-- `compileNative` (`src/compile.ts`): classify the program class's members
(fatal on any non-method member, decorator misuse, or a reloadable `main`),
then generate code — `main` first, then the static functions, then the
hot-reload functions, as the `CppCodeGeneratorImpl` constructor does. The
absence of a `main` method surfaces as the thrown error of applying
`genFunction` to the `main!` non-null assertion. -/
def compileNative (members : List Member) : Except String CodeGenOut :=
  match classifyMembers members none [] [] with
  | Except.error m => Except.error m
  | Except.ok (mainO, statics, hots) =>
    let hrNames := hots.map PFunction.name
    match mainO with
    | none => Except.error "main is not defined"
    | some mainF =>
      match genFunction hrNames mainF with
      | Except.error m => Except.error m
      | Except.ok mainCode =>
        match genFunctionList hrNames statics with
        | Except.error m => Except.error m
        | Except.ok tls =>
          match genHotReloadList hrNames hots with
          | Except.error m => Except.error m
          | Except.ok hrs =>
            Except.ok { mainCode := mainCode, topLevels := tls, hotReload := hrs }

/-- How the launched program's run ends, as observed by the driver: the
returned promise resolves (clean shutdown) or rejects. -/
inductive RunOutcome where
  | clean
  | failed (msg : String)
deriving DecidableEq, Repr

/-- Observable result of one driver invocation: the process exit code,
whether the runtime (which builds and launches the binary) was entered at
all, and the `FATAL ERROR` diagnostic, if any. -/
structure DriverResult where
  exitCode : Nat
  launched : Bool
  fatalMsg : Option String
deriving DecidableEq, Repr

/-- The `die` helper of `src/util.ts`: prints `FATAL ERROR: ` plus the
message and exits with code 1. -/
def dieMsg (m : String) : String := "FATAL ERROR: " ++ m

/-- The native arm of `main` in `src/main.ts`: `compileNative` runs inside a
try/catch whose catch calls `die(e.message)` (exit code 1, before the
runtime is started); on success the runtime is started and the driver's
`main().then(() => process.exit(0)).catch(() => process.exit(1))` maps a
clean shutdown to exit code 0 and a rejected run to exit code 1. -/
def driverMainNative (members : List Member) (run : RunOutcome) : DriverResult :=
  match compileNative members with
  | Except.error m =>
    { exitCode := 1, launched := false, fatalMsg := some (dieMsg m) }
  | Except.ok _ =>
    match run with
    | RunOutcome.clean => { exitCode := 0, launched := true, fatalMsg := none }
    | RunOutcome.failed _ => { exitCode := 1, launched := true, fatalMsg := none }

/-- A field declaration among the members always makes `classifyMembers`
fail, whatever the accumulated state. -/
theorem classifyMembers_field_error (nm : String) :
    ∀ (members : List Member) (mo : Option PFunction)
      (st hot : List PFunction), Member.field nm ∈ members →
      ∃ m, classifyMembers members mo st hot = Except.error m := by
  intro members
  induction members with
  | nil => intro mo st hot h; simp at h
  | cons hd tl ih =>
    intro mo st hot hmem
    cases hd with
    | field s => exact ⟨nonMethodMsg s, rfl⟩
    | otherMember s => exact ⟨nonMethodMsg s, rfl⟩
    | method md =>
      have hmem' : Member.field nm ∈ tl := by
        rcases List.mem_cons.mp hmem with h | h
        · exact absurd h (by simp)
        · exact h
      cases hdec : isMarkedHotReload md.decorators with
      | error m => exact ⟨m, by simp [classifyMembers, hdec]⟩
      | ok isHot =>
        by_cases hname : (methodToFunction md).name = "main"
        · cases isHot with
          | true =>
            exact ⟨"\"main\" cannot be hot-reloaded",
              by simp [classifyMembers, hdec, hname]⟩
          | false =>
            obtain ⟨m, hm⟩ := ih (some (methodToFunction md)) st hot hmem'
            exact ⟨m, by simp [classifyMembers, hdec, hname, hm]⟩
        · cases isHot with
          | true =>
            obtain ⟨m, hm⟩ :=
              ih mo st (hot ++ [methodToFunction md]) hmem'
            exact ⟨m, by simp [classifyMembers, hdec, hname, hm]⟩
          | false =>
            obtain ⟨m, hm⟩ :=
              ih mo (st ++ [methodToFunction md]) hot hmem'
            exact ⟨m, by simp [classifyMembers, hdec, hname, hm]⟩

/-- C9: the driver exits with code 0 exactly on a clean shutdown of a
successfully compiled program, with code 1 on a failed run, and on any
compilation failure it dies with a `FATAL ERROR` diagnostic, exits with code
1 and never launches the binary; in particular a program containing a field
declaration always fails compilation (with the message naming the member),
so the driver exits 1 without launching. -/
theorem C9_driver_exit_codes (members : List Member) (run : RunOutcome)
    (g : CodeGenOut) (m nm : String) :
    (compileNative members = Except.ok g →
      driverMainNative members RunOutcome.clean
        = { exitCode := 0, launched := true, fatalMsg := none }
      ∧ driverMainNative members (RunOutcome.failed m)
        = { exitCode := 1, launched := true, fatalMsg := none })
    ∧ (compileNative members = Except.error m →
        driverMainNative members run
          = { exitCode := 1, launched := false, fatalMsg := some (dieMsg m) })
    ∧ (Member.field nm ∈ members →
        (driverMainNative members run).exitCode = 1
        ∧ (driverMainNative members run).launched = false
        ∧ ∃ m', compileNative members = Except.error m'
            ∧ (driverMainNative members run).fatalMsg = some (dieMsg m')) := by
  refine ⟨?_, ?_, ?_⟩
  · intro hok
    exact ⟨by simp [driverMainNative, hok], by simp [driverMainNative, hok]⟩
  · intro herr
    simp [driverMainNative, herr]
  · intro hmem
    obtain ⟨m', hm'⟩ := classifyMembers_field_error nm members none [] [] hmem
    have herr : compileNative members = Except.error m' := by
      simp [compileNative, hm']
    refine ⟨by simp [driverMainNative, herr], by simp [driverMainNative, herr],
      m', herr, by simp [driverMainNative, herr]⟩

/-- C9 (witness): a concrete program whose only members are a `main` method
and a field `x`: compilation fails with the diagnostic naming `x`, and the
driver exits 1 without launching. -/
theorem C9_driver_exit_codes_witness :
    compileNative
        [Member.method
          { name := "main", decorators := [], params := [], retTy := some Ty.number,
            body := [Stmt.retS (some (Expr.numLit "0"))] },
         Member.field "x"]
      = Except.error (nonMethodMsg "x")
    ∧ (driverMainNative
        [Member.method
          { name := "main", decorators := [], params := [], retTy := some Ty.number,
            body := [Stmt.retS (some (Expr.numLit "0"))] },
         Member.field "x"] RunOutcome.clean).exitCode = 1
    ∧ (driverMainNative
        [Member.method
          { name := "main", decorators := [], params := [], retTy := some Ty.number,
            body := [Stmt.retS (some (Expr.numLit "0"))] },
         Member.field "x"] RunOutcome.clean).launched = false := by
  have h := (C9_driver_exit_codes
    [Member.method
      { name := "main", decorators := [], params := [], retTy := some Ty.number,
        body := [Stmt.retS (some (Expr.numLit "0"))] },
     Member.field "x"] RunOutcome.clean
    { mainCode := "", topLevels := [], hotReload := [] } "" "x").2.2
    (by simp)
  exact ⟨rfl, h.1, h.2.1⟩

end HotReloadComp

namespace HotReloadBrowser

/-- A log line of the reconciler, with its severity tag. -/
inductive LogMsg where
  | warnL (msg : String)
  | infoL (msg : String)
deriving DecidableEq, Repr

/-- A JS `Map<string, string>` modelled as an association list in insertion
order with unique keys. `mget` is `Map.get`. -/
def mget (m : List (String × String)) (k : String) : Option String :=
  (m.find? (fun p => p.1 == k)).map Prod.snd

/-- `Map.set`: updates the value in place when the key exists (preserving
insertion order), otherwise appends the new entry. -/
def mset (m : List (String × String)) (k v : String) : List (String × String) :=
  if (m.find? (fun p => p.1 == k)).isSome then
    m.map (fun p => if p.1 == k then (k, v) else p)
  else m ++ [(k, v)]

/-- `Map.delete`. -/
def mdel (m : List (String × String)) (k : String) : List (String × String) :=
  m.filter (fun p => !(p.1 == k))

/-- The `for (const hr of knownPatches.keys())` loop of
`reconcileChangedHotReloadable` (`src/runtime_browser.ts`): a known name
missing from the new map logs the deletion warnings and returns from the
whole function (the final `Bool` records this early return); a present name
whose patch differs is broadcast, stored into the known map and logged; the
name is removed from the new map either way. -/
def reconcileLoop : List String → List (String × String) →
    List (String × String) → List LogMsg → List String →
    List (String × String) × List (String × String) × List LogMsg
      × List String × Bool
  | [], known, newP, logs, bc => (known, newP, logs, bc, false)
  | hr :: rest, known, newP, logs, bc =>
    match mget newP hr with
    | none =>
      (known, newP,
       logs ++ [LogMsg.warnL ("Deletion of \"" ++ hr
                  ++ "\" during the runtime is unsupported."),
                LogMsg.warnL "Continuing as if nothing has changed."],
       bc, true)
    | some uPatch =>
      if mget known hr ≠ some uPatch then
        reconcileLoop rest (mset known hr uPatch) (mdel newP hr)
          (logs ++ [LogMsg.infoL ("\"" ++ hr ++ "\" has been reloaded.")])
          (bc ++ [uPatch])
      else
        reconcileLoop rest known (mdel newP hr) logs bc

/-- `reconcileChangedHotReloadable`: run the loop over the known names; when
the loop completed without an early return and more than one name remains in
the new map, log the addition warnings. Returns the known map after
reconciliation, the log lines, and the broadcast patches, in order. -/
def reconcile (known newP : List (String × String)) :
    List (String × String) × List LogMsg × List String :=
  match reconcileLoop (known.map Prod.fst) known newP [] [] with
  | (known', newP', logs, bc, stopped) =>
    if stopped then (known', logs, bc)
    else if newP'.length > 1 then
      let whatsNew :=
        String.intercalate ", " (newP'.map (fun p => "\"" ++ p.1 ++ "\""))
      (known',
       logs ++ [LogMsg.warnL ("Addition of new function(s) " ++ whatsNew
                  ++ " during the runtime is unsupported."),
                LogMsg.warnL "Continuing as if nothing has changed."],
       bc)
    else (known', logs, bc)

/-- C5: concrete behaviour of the reconciler. A deletion warns and stops with
the known state unchanged; a changed patch is broadcast and stored; two
genuinely new names produce the addition-unsupported warning; but exactly
one new name (here a patch map gaining `"f"` over an empty known map)
produces no log line at all — the `newPatches.size > 1` guard silently
ignores a single addition, contradicting the claim (and spec R3/L4), which
demand the warning for every addition. -/
theorem C5_reconcile_behaviour :
    reconcile [] [("f", "p")] = ([], [], [])
    ∧ reconcile [] [("f", "p"), ("g", "q")]
      = ([],
         [LogMsg.warnL
            "Addition of new function(s) \"f\", \"g\" during the runtime is unsupported.",
          LogMsg.warnL "Continuing as if nothing has changed."],
         [])
    ∧ reconcile [("f", "p")] []
      = ([("f", "p")],
         [LogMsg.warnL "Deletion of \"f\" during the runtime is unsupported.",
          LogMsg.warnL "Continuing as if nothing has changed."],
         [])
    ∧ reconcile [("f", "p")] [("f", "q")]
      = ([("f", "q")], [LogMsg.infoL "\"f\" has been reloaded."], ["q"]) := by
  refine ⟨rfl, rfl, rfl, rfl⟩

end HotReloadBrowser
